import Mathlib

/-
Verification of the context-compaction core (src/src/core/compaction.py).

The message data model and every operation below are shallow embeddings of the
Python source: pure functions become Lean functions, the backward pruning loop
becomes a structural recursion over the list processed newest-first, machine
integers are Nat/Int. Declarative "spec-side" definitions (clearly marked)
transcribe the natural-language specification for comparison theorems.
-/

namespace Compaction

/-- One tool call's `function` payload: `tc["function"]["name"]` and
`tc["function"]["arguments"]` are the only fields the code reads
(compaction.py lines 84-88). -/
structure ToolCall where
  name : String
  arguments : String
deriving DecidableEq, Repr

/-- One element of a list-valued `content`. The code reads `part.get("text", "")`
and `part.get("type")` of dict parts (lines 76-81); a non-dict part is skipped. -/
inductive ContentPart where
  | textPart (ptype : String) (text : String)
  | nonDict
deriving DecidableEq, Repr

/-- The `content` field of a message: a plain string, a list of parts, or
absent/None (both behave alike everywhere the code reads it). -/
inductive Content where
  | str (s : String)
  | parts (l : List ContentPart)
  | absent
deriving DecidableEq, Repr

/-- A conversation message. `extra` carries the message fields the compaction
code never reads, so frame properties (fields round-tripped untouched) are
expressible. -/
structure Message where
  role : String
  content : Content
  tool_calls : List ToolCall
  extra : List (String × String)
deriving DecidableEq, Repr

instance : Inhabited Message := ⟨⟨"", Content.absent, [], []⟩⟩

/-- APPROX_CHARS_PER_TOKEN (compaction.py line 26). -/
def APPROX_CHARS_PER_TOKEN : Nat := 4

/-- MODEL_CONTEXT_LIMIT (line 29). -/
def MODEL_CONTEXT_LIMIT : Nat := 7000

/-- OUTPUT_TOKEN_MAX (line 30). -/
def OUTPUT_TOKEN_MAX : Nat := 16384

/-- PRUNE_PROTECT (line 34). -/
def PRUNE_PROTECT : Nat := 36000

/-- PRUNE_MINIMUM (line 35). -/
def PRUNE_MINIMUM : Nat := 6000

/-- PRUNE_MARKER (line 36). -/
def PRUNE_MARKER : String := "[Old tool result content cleared]"

/-- PROTECTED_MESSAGE_COUNT (line 220). -/
def PROTECTED_MESSAGE_COUNT : Nat := 2

/-- estimate_tokens (lines 62-64): `max(0, len(text or "") // 4)`. On a string
argument the `max` is vacuous and the result is `len // 4`. -/
def estimate_tokens (text : String) : Nat :=
  text.length / APPROX_CHARS_PER_TOKEN

/-- Tokens of one content part (lines 76-81): text tokens plus a 1000-token
surcharge when the part's type is "image_url"; a non-dict part contributes 0. -/
def part_tokens : ContentPart → Nat
  | ContentPart.textPart ptype text =>
      estimate_tokens text + (if ptype = "image_url" then 1000 else 0)
  | ContentPart.nonDict => 0

/-- Tokens of the content field (lines 72-81): a string is estimated directly,
a list sums its parts, anything else contributes 0. -/
def content_tokens : Content → Nat
  | Content.str s => estimate_tokens s
  | Content.parts l => (l.map part_tokens).sum
  | Content.absent => 0

/-- Tokens of one attached tool call (lines 85-88): function name plus arguments. -/
def tool_call_tokens (tc : ToolCall) : Nat :=
  estimate_tokens tc.name + estimate_tokens tc.arguments

/-- estimate_message_tokens (lines 67-93): content tokens + tool-call tokens +
a fixed per-message overhead of 4. -/
def estimate_message_tokens (msg : Message) : Nat :=
  content_tokens msg.content + (msg.tool_calls.map tool_call_tokens).sum + 4

/-- estimate_total_tokens (lines 96-98). -/
def estimate_total_tokens (messages : List Message) : Nat :=
  (messages.map estimate_message_tokens).sum

/-- get_usable_context (lines 105-107): returns MODEL_CONTEXT_LIMIT without
subtracting the output reserve. -/
def get_usable_context : Nat := MODEL_CONTEXT_LIMIT

/-- is_overflow (lines 110-113) at the default threshold 0.85:
`total > usable * 0.85`. The Python float product `7000 * 0.85` is exactly the
double 5950.0, so the comparison is the exact rational one stated here. -/
def is_overflow (total_tokens : Nat) : Bool :=
  100 * total_tokens > 85 * get_usable_context

/-- needs_compaction (lines 116-119). -/
def needs_compaction (messages : List Message) : Bool :=
  is_overflow (estimate_total_tokens messages)

/-- Length Python's `len` gives the content value in the pruning scan
(line 182 calls `estimate_tokens(content)` where content may be a string, a
parts list, or None: `len(text or "")`). -/
def prune_content_len : Content → Nat
  | Content.str s => s.length
  | Content.parts l => l.length
  | Content.absent => 0

/-- The token estimate the pruning scan uses for a raw content value (line 182). -/
def prune_estimate (c : Content) : Nat :=
  prune_content_len c / APPROX_CHARS_PER_TOKEN

/-- State of the backward pruning scan (lines 156-189): the running tool-token
total, the recoverable total, one mark per message (true = will be cleared),
the user-turn counter, and whether the scan has stopped at a sentinel. -/
structure PruneScan where
  total : Nat
  pruned : Nat
  marks : List Bool
  turns : Nat
  stopped : Bool
deriving DecidableEq, Repr

/-- One iteration of the backward loop body (lines 162-189) applied to message
`msg`, given the state `st` accumulated over all newer messages. After the
Python loop has executed `break` the remaining (older) messages are never
visited: here `stopped` records that, the mark is false and the state is
otherwise passed through (the turn counter is threaded on but never read
after a stop). -/
def prune_step (msg : Message) (st : PruneScan) (protect_last_turns : Nat) : PruneScan :=
  let turns := if msg.role = "user" then st.turns + 1 else st.turns
  if st.stopped then
    ⟨st.total, st.pruned, false :: st.marks, turns, true⟩
  else if turns < protect_last_turns then
    ⟨st.total, st.pruned, false :: st.marks, turns, false⟩
  else if msg.role = "tool" then
    if msg.content = Content.str PRUNE_MARKER then
      ⟨st.total, st.pruned, false :: st.marks, turns, true⟩
    else if PRUNE_PROTECT < st.total + prune_estimate msg.content then
      ⟨st.total + prune_estimate msg.content, st.pruned + prune_estimate msg.content,
        true :: st.marks, turns, false⟩
    else
      ⟨st.total + prune_estimate msg.content, st.pruned, false :: st.marks, turns, false⟩
  else
    ⟨st.total, st.pruned, false :: st.marks, turns, false⟩

/-- The whole backward scan (lines 153-189): messages are visited newest first,
so the scan of `msg :: rest` runs the loop body for `msg` on the state built
from `rest`. -/
def prune_scan (protect_last_turns : Nat) : List Message → PruneScan
  | [] => ⟨0, 0, [], 0, false⟩
  | msg :: rest => prune_step msg (prune_scan protect_last_turns rest) protect_last_turns

/-- prune_old_tool_outputs (lines 132-212): run the scan; commit only when the
recoverable total strictly exceeds PRUNE_MINIMUM, replacing each marked
message's content by the sentinel (`{**msg, "content": PRUNE_MARKER}`,
lines 200-212); otherwise return the input unchanged. The caller always uses
the default `protect_last_turns = 2`. -/
def prune_old_tool_outputs (messages : List Message) (protect_last_turns : Nat) : List Message :=
  let st := prune_scan protect_last_turns messages
  if st.pruned ≤ PRUNE_MINIMUM then messages
  else
    (messages.zip st.marks).map fun p =>
      if p.2 then { p.1 with content := Content.str PRUNE_MARKER } else p.1

/-- SUMMARY_TOKEN_ESTIMATE (line 261). -/
def SUMMARY_TOKEN_ESTIMATE : Nat := 2000

/-- The accumulation loop of _find_messages_to_compact (lines 275-283): count
messages from the front, adding each estimate to `accumulated`, stopping as
soon as the accumulation reaches `tokens_to_remove`. -/
def count_messages_to_compact (tokens_to_remove : Int) : List Message → Int → Nat
  | [], _ => 0
  | msg :: rest, accumulated =>
    let acc := accumulated + (estimate_message_tokens msg : Int)
    if tokens_to_remove ≤ acc then 1
    else 1 + count_messages_to_compact tokens_to_remove rest acc

/-- _find_messages_to_compact (lines 223-289). Token budgets are Python ints,
so the subtractions below are signed. -/
def find_messages_to_compact (messages : List Message) (target_tokens : Int) : Nat × Nat :=
  let protected_messages := messages.take PROTECTED_MESSAGE_COUNT
  let compactable_messages := messages.drop PROTECTED_MESSAGE_COUNT
  let protected_tokens : Int := (estimate_total_tokens protected_messages : Int)
  let compactable_tokens : Int := (estimate_total_tokens compactable_messages : Int)
  let total_tokens := protected_tokens + compactable_tokens
  if total_tokens ≤ target_tokens then (0, 0)
  else if compactable_messages.length ≤ 2 then (0, 0)
  else
    let max_kept_tokens := target_tokens - protected_tokens - (SUMMARY_TOKEN_ESTIMATE : Int)
    if max_kept_tokens ≤ 0 then
      (PROTECTED_MESSAGE_COUNT, compactable_messages.length - 2)
    else
      let tokens_to_remove := compactable_tokens - max_kept_tokens
      if tokens_to_remove ≤ 0 then (0, 0)
      else
        let n := count_messages_to_compact tokens_to_remove compactable_messages 0
        (PROTECTED_MESSAGE_COUNT, min n (compactable_messages.length - 2))

/-- run_compaction (lines 292-359). The default target is
`int(usable * 0.75)` (line 327; the float product is exactly 5250.0). The
`llm`, `system_prompt` and `model` parameters are received exactly as in the
source, which never uses them: the returned list is
`protected_messages + messages_to_keep` (lines 352-354) — no summarizer call
and no synthetic summary message appear anywhere in the function body. -/
def run_compaction {α : Type} (llm : α) (messages : List Message) (system_prompt : String)
    (model : Option String) (target_tokens : Option Int) : List Message :=
  let target := match target_tokens with
    | some t => t
    | none => (get_usable_context * 3 / 4 : Nat)
  let plan := find_messages_to_compact messages target
  if plan.2 = 0 then messages
  else
    let protected_messages := messages.take PROTECTED_MESSAGE_COUNT
    let messages_to_keep := messages.drop (plan.1 + plan.2)
    protected_messages ++ messages_to_keep

/-- manage_context (lines 365-418): fast path when not forced and not
overflowing; then prune (with the default protect_last_turns = 2); return the
pruned list when that resolves the overflow and compaction is not forced;
otherwise run compaction on the pruned list with the default target. -/
def manage_context {α : Type} (messages : List Message) (system_prompt : String)
    (llm : α) (force_compaction : Bool) : List Message :=
  let total_tokens := estimate_total_tokens messages
  if !force_compaction && !is_overflow total_tokens then messages
  else
    let pruned := prune_old_tool_outputs messages 2
    let pruned_tokens := estimate_total_tokens pruned
    if !is_overflow pruned_tokens && !force_compaction then pruned
    else run_compaction llm pruned system_prompt none none

/-! Declarative (spec-side) descriptions of the pruning scan, transcribed from
the specification's §4.3 wording, for comparison with the executable scan. -/

/-- Number of user-role messages at positions `i, i+1, ...` — the value the
backward scan's turn counter has right after visiting position `i`. -/
def user_turns_from (messages : List Message) (i : Nat) : Nat :=
  (messages.drop i).countP fun m => m.role == "user"

/-- Position `j` halts the scan: a tool message outside the protected turn
window whose content already equals the sentinel ("stop scanning entirely",
spec §4.3). -/
def scan_stops_at (messages : List Message) (j : Nat) : Prop :=
  (messages.getD j default).role = "tool" ∧
  (messages.getD j default).content = Content.str PRUNE_MARKER ∧
  2 ≤ user_turns_from messages j

/-- Running total of tool-output tokens the backward scan has seen once it has
visited every position of `l`: each tool message outside the protected turn
window contributes its estimate. -/
def tool_tokens : List Message → Nat
  | [] => 0
  | m :: rest =>
    (if m.role = "tool" ∧ 2 ≤ user_turns_from (m :: rest) 0 then prune_estimate m.content else 0)
      + tool_tokens rest

/-- The specification's eviction condition for position `i` (spec §4.3): a
non-sentinel tool-role message outside the last 2 user turns, reached by the
scan (no sentinel halt at any newer position), whose running `seen` total —
the tool tokens accumulated from the newest message down to and including
`i` — exceeds PRUNE_PROTECT. -/
def mark_spec (messages : List Message) (i : Nat) : Prop :=
  (messages.getD i default).role = "tool" ∧
  (messages.getD i default).content ≠ Content.str PRUNE_MARKER ∧
  2 ≤ user_turns_from messages i ∧
  (∀ j, i < j → ¬ scan_stops_at messages j) ∧
  PRUNE_PROTECT < tool_tokens (messages.drop i)

/-- The recoverable total: the summed estimates of exactly the marked messages. -/
def recoverable_tokens (messages : List Message) : Nat :=
  ((messages.zip (prune_scan 2 messages).marks).map fun p =>
    if p.2 then prune_estimate p.1.content else 0).sum

/-! Dynamic model of Python values, for the estimation functions as they
behave on arbitrary (also malformed) message dictionaries. `Except` carries a
raised exception. -/

/-- A Python value of the shapes the estimation code can meet. -/
inductive PyVal where
  | pynone
  | pyint (n : Int)
  | pystr (s : String)
  | pylist (l : List PyVal)
  | pydict (d : List (String × PyVal))
deriving Repr, Inhabited

/-- Python `v == s` for a string literal `s`: true exactly when `v` is that
string (no other value of these shapes equals a nonempty string literal). -/
def py_eq_str : PyVal → String → Bool
  | PyVal.pystr s, t => s == t
  | _, _ => false

/-- Python `d.get(k, dflt)` on a dict. -/
def dict_get (d : List (String × PyVal)) (k : String) (dflt : PyVal) : PyVal :=
  match d.find? (fun p => p.1 == k) with
  | some p => p.2
  | none => dflt

/-- Python truthiness of a value (`text or ""` keeps a truthy text). -/
def py_truthy : PyVal → Bool
  | PyVal.pynone => false
  | PyVal.pyint n => !(n == 0)
  | PyVal.pystr s => !(s == "")
  | PyVal.pylist l => !l.isEmpty
  | PyVal.pydict d => !d.isEmpty

/-- Python `len(v)`: defined on strings, lists and dicts, a TypeError otherwise. -/
def py_len : PyVal → Except String Nat
  | PyVal.pystr s => Except.ok s.length
  | PyVal.pylist l => Except.ok l.length
  | PyVal.pydict d => Except.ok d.length
  | _ => Except.error "TypeError: object has no len()"

/-- Python iteration `for x in v`: lists yield elements, strings their
characters, dicts their keys; other values raise TypeError. -/
def py_iter : PyVal → Except String (List PyVal)
  | PyVal.pylist l => Except.ok l
  | PyVal.pystr s => Except.ok (s.toList.map fun c => PyVal.pystr (String.mk [c]))
  | PyVal.pydict d => Except.ok (d.map fun p => PyVal.pystr p.1)
  | _ => Except.error "TypeError: object is not iterable"

/-- Python `v.get(k, dflt)`: an AttributeError unless `v` is a dict. -/
def py_attr_get (v : PyVal) (k : String) (dflt : PyVal) : Except String PyVal :=
  match v with
  | PyVal.pydict d => Except.ok (dict_get d k dflt)
  | _ => Except.error "AttributeError: object has no attribute get"

/-- estimate_tokens (lines 62-64) on an arbitrary value:
`max(0, len(text or "") // 4)`. -/
def estimate_tokens_py (text : PyVal) : Except String Nat := do
  let t := if py_truthy text then text else PyVal.pystr ""
  let n ← py_len t
  return n / 4

/-- Tokens of one content part (lines 76-81) on an arbitrary value: only dict
parts are read; `part.get("text", "")` is estimated (which can raise on an
unsized truthy value) and an "image_url" type adds 1000. -/
def part_tokens_py (part : PyVal) : Except String Nat :=
  match part with
  | PyVal.pydict d => do
      let t ← estimate_tokens_py (dict_get d "text" (PyVal.pystr ""))
      return t + (if py_eq_str (dict_get d "type" PyVal.pynone) "image_url" then 1000 else 0)
  | _ => Except.ok 0

/-- Tokens of one tool-call entry (lines 85-88) on an arbitrary value:
`tc.get("function", {})` then the name and arguments estimates. -/
def tool_call_tokens_py (tc : PyVal) : Except String Nat := do
  let func ← py_attr_get tc "function" (PyVal.pydict [])
  let nameV ← py_attr_get func "name" (PyVal.pystr "")
  let argsV ← py_attr_get func "arguments" (PyVal.pystr "")
  let a ← estimate_tokens_py nameV
  let b ← estimate_tokens_py argsV
  return a + b

/-- estimate_message_tokens (lines 67-93) on an arbitrary value: string
content is estimated, list content sums its parts, any other content
contributes 0; then `msg.get("tool_calls", [])` is iterated and each entry's
function name and arguments are estimated; plus the overhead 4. -/
def estimate_message_tokens_py (msg : PyVal) : Except String Nat :=
  match msg with
  | PyVal.pydict d => do
      let ctoks ←
        match dict_get d "content" PyVal.pynone with
        | PyVal.pystr s => pure (estimate_tokens s)
        | PyVal.pylist parts =>
            parts.foldlM (fun acc p => do
              let t ← part_tokens_py p
              return acc + t) 0
        | _ => pure 0
      let tcs ← py_iter (dict_get d "tool_calls" (PyVal.pylist []))
      let tctoks ← tcs.foldlM (fun acc tc => do
        let t ← tool_call_tokens_py tc
        return acc + t) 0
      return ctoks + tctoks + 4
  | _ => Except.error "AttributeError: object has no attribute get"

/-- The Python dict a structured content part stands for. -/
def ContentPart.toPy : ContentPart → PyVal
  | ContentPart.textPart ptype text =>
      PyVal.pydict [("type", PyVal.pystr ptype), ("text", PyVal.pystr text)]
  | ContentPart.nonDict => PyVal.pyint 0

/-- The Python value a structured content field stands for. -/
def Content.toPy : Content → PyVal
  | Content.str s => PyVal.pystr s
  | Content.parts l => PyVal.pylist (l.map ContentPart.toPy)
  | Content.absent => PyVal.pynone

/-- The Python dict a structured tool call stands for. -/
def ToolCall.toPy (tc : ToolCall) : PyVal :=
  PyVal.pydict [("function",
    PyVal.pydict [("name", PyVal.pystr tc.name), ("arguments", PyVal.pystr tc.arguments)])]

/-- The Python dict a structured message stands for: the fields the code
reads, followed by the untouched extra fields. -/
def Message.toPy (m : Message) : PyVal :=
  PyVal.pydict
    ([("role", PyVal.pystr m.role), ("content", m.content.toPy),
      ("tool_calls", PyVal.pylist (m.tool_calls.map ToolCall.toPy))]
      ++ m.extra.map fun p => (p.1, PyVal.pystr p.2))

/-! The context-management subsection of the benchmark configuration
(src/src/config/defaults.py lines 58-69). -/

/-- The limit and budget values CONFIG defines (defaults.py lines 59-69); the
threshold fraction 0.85 is carried as a percentage. -/
structure ContextConfig where
  model_context_limit : Nat
  output_token_max : Nat
  auto_compact_threshold_pct : Nat
  prune_protect : Nat
  prune_minimum : Nat
deriving DecidableEq, Repr

/-- CONFIG's context-management values (defaults.py lines 59-69). -/
def CONFIG : ContextConfig :=
  ⟨200000, 16384, 85, 30000, 5000⟩

/-! Concrete inputs used by the closed theorems. -/

/-- A string of `n` copies of 'a'. -/
def repN (n : Nat) : String := String.mk (List.replicate n 'a')

/-- A user message with plain string content and nothing else. -/
def user_msg (s : String) : Message := ⟨"user", Content.str s, [], []⟩

/-- A tool message with plain string content and nothing else. -/
def tool_msg (s : String) : Message := ⟨"tool", Content.str s, [], []⟩

/-- Overflow scenario with no tool messages: 2 protected user messages and six
1004-token compactable user messages (6032 tokens total, over the 5950
threshold; the default compaction target is 5250). -/
def exOverflow : List Message :=
  [user_msg "", user_msg "",
   user_msg (repN 4000), user_msg (repN 4000), user_msg (repN 4000),
   user_msg (repN 4000), user_msg (repN 4000), user_msg (repN 4000)]

/-- A list whose first message is a huge tool result (36002 tokens) followed by
two user turns: the backward scan reaches index 0 outside the protected window
and evicts it. -/
def exToolFirst : List Message :=
  [tool_msg (repN 144008), user_msg "", user_msg ""]

/-- A minimal well-shaped prefix: system prompt then one user message. -/
def exSmall : List Message :=
  [⟨"system", Content.str "sys", [], []⟩, user_msg "hi"]


theorem prune_step_marks_tail (msg : Message) (st : PruneScan) (p i : Nat) :
    (prune_step msg st p).marks.getD (i + 1) false = st.marks.getD i false := by
  simp only [prune_step]
  split_ifs <;> simp [List.getD_cons_succ]

theorem prune_scan_marks_length (l : List Message) :
    (prune_scan 2 l).marks.length = l.length := by
  induction l with
  | nil => rfl
  | cons m rest ih =>
    simp only [prune_scan, prune_step]
    split_ifs <;> simp [ih]

theorem prune_step_turns (msg : Message) (st : PruneScan) (p : Nat) :
    (prune_step msg st p).turns = if msg.role = "user" then st.turns + 1 else st.turns := by
  simp only [prune_step]
  split_ifs <;> rfl

theorem prune_scan_turns (l : List Message) :
    (prune_scan 2 l).turns = l.countP (fun m => m.role == "user") := by
  induction l with
  | nil => rfl
  | cons m rest ih =>
    rw [prune_scan, prune_step_turns, ih, List.countP_cons]
    by_cases h : m.role = "user" <;> simp [h]

theorem user_turns_from_zero (l : List Message) :
    user_turns_from l 0 = l.countP (fun m => m.role == "user") := by
  simp [user_turns_from]

theorem user_turns_from_succ (m : Message) (rest : List Message) (i : Nat) :
    user_turns_from (m :: rest) (i + 1) = user_turns_from rest i := by
  simp [user_turns_from]

theorem scan_stops_at_succ (m : Message) (rest : List Message) (j : Nat) :
    scan_stops_at (m :: rest) (j + 1) ↔ scan_stops_at rest j := by
  simp [scan_stops_at, user_turns_from_succ, List.getD_cons_succ]

theorem scan_stops_at_zero (m : Message) (rest : List Message) :
    scan_stops_at (m :: rest) 0 ↔
      m.role = "tool" ∧ m.content = Content.str PRUNE_MARKER ∧
        2 ≤ (m :: rest).countP (fun x => x.role == "user") := by
  simp [scan_stops_at, user_turns_from_zero, List.getD_cons_zero]

theorem exists_scan_stop_cons (m : Message) (rest : List Message) :
    (∃ j, scan_stops_at (m :: rest) j) ↔
      (scan_stops_at (m :: rest) 0 ∨ ∃ j, scan_stops_at rest j) := by
  constructor
  · rintro ⟨j, hj⟩
    cases j with
    | zero => exact Or.inl hj
    | succ j => exact Or.inr ⟨j, (scan_stops_at_succ m rest j).mp hj⟩
  · rintro (h | ⟨j, hj⟩)
    · exact ⟨0, h⟩
    · exact ⟨j + 1, (scan_stops_at_succ m rest j).mpr hj⟩

theorem prune_step_stopped_of_stopped (msg : Message) (st : PruneScan) (p : Nat)
    (h : st.stopped = true) : (prune_step msg st p).stopped = true := by
  simp only [prune_step, h]
  split_ifs <;> rfl

theorem turns_cons (m : Message) (rest : List Message) :
    (if m.role = "user" then (prune_scan 2 rest).turns + 1 else (prune_scan 2 rest).turns)
      = (m :: rest).countP (fun x => x.role == "user") := by
  rw [prune_scan_turns, List.countP_cons]
  by_cases h : m.role = "user" <;> simp [h]

theorem prune_scan_stopped_iff (l : List Message) :
    (prune_scan 2 l).stopped = true ↔ ∃ j, scan_stops_at l j := by
  induction l with
  | nil =>
    refine iff_of_false (by simp [prune_scan]) ?_
    rintro ⟨j, hj⟩
    have h1 := hj.1
    rw [List.getD_nil] at h1
    rw [show (default : Message).role = "" from rfl] at h1
    exact absurd h1 (by decide)
  | cons m rest ih =>
    rw [prune_scan]
    rw [exists_scan_stop_cons, scan_stops_at_zero]
    by_cases hstop : (prune_scan 2 rest).stopped = true
    · rw [prune_step_stopped_of_stopped m _ 2 hstop]
      simp only [true_iff]
      exact Or.inr (ih.mp hstop)
    · have hstop' : (prune_scan 2 rest).stopped = false := by
        simpa using hstop
      have hrest : ¬ ∃ j, scan_stops_at rest j := fun h => hstop (ih.mpr h)
      simp only [prune_step, hstop', turns_cons, Bool.false_eq_true, if_false]
      split_ifs with h1 h2 h3 h4
      · simp only [false_iff]
        rintro (⟨_, _, hge⟩ | h)
        · omega
        · exact hrest h
      · simp only [true_iff]
        exact Or.inl ⟨h2, h3, by omega⟩
      · simp only [false_iff]
        rintro (⟨_, hmk, _⟩ | h)
        · exact h3 hmk
        · exact hrest h
      · simp only [false_iff]
        rintro (⟨_, hmk, _⟩ | h)
        · exact h3 hmk
        · exact hrest h
      · simp only [false_iff]
        rintro (⟨hrole, _, _⟩ | h)
        · exact h2 hrole
        · exact hrest h


theorem prune_scan_cons_stop (m : Message) (rest : List Message)
    (h : (prune_scan 2 rest).stopped = true) :
    prune_scan 2 (m :: rest) =
      ⟨(prune_scan 2 rest).total, (prune_scan 2 rest).pruned,
        false :: (prune_scan 2 rest).marks,
        if m.role = "user" then (prune_scan 2 rest).turns + 1 else (prune_scan 2 rest).turns,
        true⟩ := by
  rw [prune_scan]
  simp [prune_step, h]

theorem prune_scan_cons_window (m : Message) (rest : List Message)
    (h : (prune_scan 2 rest).stopped = false)
    (h1 : (m :: rest).countP (fun x => x.role == "user") < 2) :
    prune_scan 2 (m :: rest) =
      ⟨(prune_scan 2 rest).total, (prune_scan 2 rest).pruned,
        false :: (prune_scan 2 rest).marks,
        (m :: rest).countP (fun x => x.role == "user"), false⟩ := by
  rw [prune_scan]
  simp only [prune_step, h, turns_cons, Bool.false_eq_true, if_false]
  rw [if_pos h1]

theorem prune_scan_cons_marker (m : Message) (rest : List Message)
    (h : (prune_scan 2 rest).stopped = false)
    (h1 : ¬ (m :: rest).countP (fun x => x.role == "user") < 2)
    (h2 : m.role = "tool") (h3 : m.content = Content.str PRUNE_MARKER) :
    prune_scan 2 (m :: rest) =
      ⟨(prune_scan 2 rest).total, (prune_scan 2 rest).pruned,
        false :: (prune_scan 2 rest).marks,
        (m :: rest).countP (fun x => x.role == "user"), true⟩ := by
  rw [prune_scan]
  simp only [prune_step, h, turns_cons, Bool.false_eq_true, if_false]
  rw [if_neg h1, if_pos h2, if_pos h3]

theorem prune_scan_cons_marked (m : Message) (rest : List Message)
    (h : (prune_scan 2 rest).stopped = false)
    (h1 : ¬ (m :: rest).countP (fun x => x.role == "user") < 2)
    (h2 : m.role = "tool") (h3 : ¬ m.content = Content.str PRUNE_MARKER)
    (h4 : PRUNE_PROTECT < (prune_scan 2 rest).total + prune_estimate m.content) :
    prune_scan 2 (m :: rest) =
      ⟨(prune_scan 2 rest).total + prune_estimate m.content,
        (prune_scan 2 rest).pruned + prune_estimate m.content,
        true :: (prune_scan 2 rest).marks,
        (m :: rest).countP (fun x => x.role == "user"), false⟩ := by
  rw [prune_scan]
  simp only [prune_step, h, turns_cons, Bool.false_eq_true, if_false]
  rw [if_neg h1, if_pos h2, if_neg h3, if_pos h4]

theorem prune_scan_cons_unmarked (m : Message) (rest : List Message)
    (h : (prune_scan 2 rest).stopped = false)
    (h1 : ¬ (m :: rest).countP (fun x => x.role == "user") < 2)
    (h2 : m.role = "tool") (h3 : ¬ m.content = Content.str PRUNE_MARKER)
    (h4 : ¬ PRUNE_PROTECT < (prune_scan 2 rest).total + prune_estimate m.content) :
    prune_scan 2 (m :: rest) =
      ⟨(prune_scan 2 rest).total + prune_estimate m.content,
        (prune_scan 2 rest).pruned,
        false :: (prune_scan 2 rest).marks,
        (m :: rest).countP (fun x => x.role == "user"), false⟩ := by
  rw [prune_scan]
  simp only [prune_step, h, turns_cons, Bool.false_eq_true, if_false]
  rw [if_neg h1, if_pos h2, if_neg h3, if_neg h4]

theorem prune_scan_cons_nontool (m : Message) (rest : List Message)
    (h : (prune_scan 2 rest).stopped = false)
    (h1 : ¬ (m :: rest).countP (fun x => x.role == "user") < 2)
    (h2 : ¬ m.role = "tool") :
    prune_scan 2 (m :: rest) =
      ⟨(prune_scan 2 rest).total, (prune_scan 2 rest).pruned,
        false :: (prune_scan 2 rest).marks,
        (m :: rest).countP (fun x => x.role == "user"), false⟩ := by
  rw [prune_scan]
  simp only [prune_step, h, turns_cons, Bool.false_eq_true, if_false]
  rw [if_neg h1, if_neg h2]


theorem prune_scan_total_eq (l : List Message) (h : (prune_scan 2 l).stopped = false) :
    (prune_scan 2 l).total = tool_tokens l := by
  induction l with
  | nil => rfl
  | cons m rest ih =>
    have hst : (prune_scan 2 rest).stopped = false := by
      by_contra hc
      have hc' : (prune_scan 2 rest).stopped = true := by simpa using hc
      rw [prune_scan_cons_stop m rest hc'] at h
      cases h
    have ihv := ih hst
    rw [tool_tokens, user_turns_from_zero]
    by_cases h1 : (m :: rest).countP (fun x => x.role == "user") < 2
    · rw [prune_scan_cons_window m rest hst h1]
      rw [if_neg (fun hh => absurd hh.2 (by omega))]
      simpa using ihv
    · by_cases h2 : m.role = "tool"
      · by_cases h3 : m.content = Content.str PRUNE_MARKER
        · rw [prune_scan_cons_marker m rest hst h1 h2 h3] at h
          cases h
        · by_cases h4 : PRUNE_PROTECT < (prune_scan 2 rest).total + prune_estimate m.content
          · rw [prune_scan_cons_marked m rest hst h1 h2 h3 h4]
            rw [if_pos ⟨h2, by omega⟩]
            show (prune_scan 2 rest).total + prune_estimate m.content = _
            omega
          · rw [prune_scan_cons_unmarked m rest hst h1 h2 h3 h4]
            rw [if_pos ⟨h2, by omega⟩]
            show (prune_scan 2 rest).total + prune_estimate m.content = _
            omega
      · rw [prune_scan_cons_nontool m rest hst h1 h2]
        rw [if_neg (fun hh => h2 hh.1)]
        simpa using ihv

theorem mark_spec_succ (m : Message) (rest : List Message) (i : Nat) :
    mark_spec (m :: rest) (i + 1) ↔ mark_spec rest i := by
  unfold mark_spec
  rw [List.getD_cons_succ, user_turns_from_succ, List.drop_succ_cons]
  constructor
  · rintro ⟨a, b, c, d, e⟩
    refine ⟨a, b, c, fun j hj hs => ?_, e⟩
    exact d (j + 1) (by omega) ((scan_stops_at_succ m rest j).mpr hs)
  · rintro ⟨a, b, c, d, e⟩
    refine ⟨a, b, c, fun j hj => ?_, e⟩
    cases j with
    | zero => omega
    | succ j =>
      intro hs
      exact d j (by omega) ((scan_stops_at_succ m rest j).mp hs)

theorem mark_spec_zero (m : Message) (rest : List Message) :
    mark_spec (m :: rest) 0 ↔
      (m.role = "tool" ∧ m.content ≠ Content.str PRUNE_MARKER ∧
       2 ≤ (m :: rest).countP (fun x => x.role == "user") ∧
       (¬ ∃ j, scan_stops_at rest j) ∧
       PRUNE_PROTECT < tool_tokens (m :: rest)) := by
  unfold mark_spec
  rw [List.getD_cons_zero, user_turns_from_zero, List.drop_zero]
  constructor
  · rintro ⟨a, b, c, d, e⟩
    refine ⟨a, b, c, ?_, e⟩
    rintro ⟨j, hj⟩
    exact d (j + 1) (by omega) ((scan_stops_at_succ m rest j).mpr hj)
  · rintro ⟨a, b, c, d, e⟩
    refine ⟨a, b, c, ?_, e⟩
    intro j hj
    cases j with
    | zero => omega
    | succ j =>
      intro hs
      exact d ⟨j, (scan_stops_at_succ m rest j).mp hs⟩

theorem prune_scan_marks_iff (l : List Message) (i : Nat) :
    ((prune_scan 2 l).marks.getD i false = true) ↔ mark_spec l i := by
  induction l generalizing i with
  | nil =>
    refine iff_of_false (by simp [prune_scan, List.getD_nil]) ?_
    rintro ⟨h1, _⟩
    rw [List.getD_nil, show (default : Message).role = "" from rfl] at h1
    exact absurd h1 (by decide)
  | cons m rest ih =>
    cases i with
    | succ i =>
      have ht : (prune_scan 2 (m :: rest)).marks.getD (i + 1) false
          = (prune_scan 2 rest).marks.getD i false := by
        rw [prune_scan]
        exact prune_step_marks_tail m _ 2 i
      rw [ht, ih, mark_spec_succ]
    | zero =>
      rw [mark_spec_zero]
      by_cases hstop : (prune_scan 2 rest).stopped = true
      · rw [prune_scan_cons_stop m rest hstop]
        refine iff_of_false (by simp) ?_
        rintro ⟨_, _, _, hnostop, _⟩
        exact hnostop ((prune_scan_stopped_iff rest).mp hstop)
      · have hst : (prune_scan 2 rest).stopped = false := by simpa using hstop
        have hnostop : ¬ ∃ j, scan_stops_at rest j :=
          fun hh => hstop ((prune_scan_stopped_iff rest).mpr hh)
        by_cases h1 : (m :: rest).countP (fun x => x.role == "user") < 2
        · rw [prune_scan_cons_window m rest hst h1]
          refine iff_of_false (by simp) ?_
          rintro ⟨_, _, hge, _, _⟩
          omega
        · by_cases h2 : m.role = "tool"
          · by_cases h3 : m.content = Content.str PRUNE_MARKER
            · rw [prune_scan_cons_marker m rest hst h1 h2 h3]
              refine iff_of_false (by simp) ?_
              rintro ⟨_, hne, _⟩
              exact hne h3
            · have htt : tool_tokens (m :: rest)
                  = prune_estimate m.content + tool_tokens rest := by
                rw [tool_tokens, user_turns_from_zero, if_pos ⟨h2, by omega⟩]
              have htot := prune_scan_total_eq rest hst
              by_cases h4 : PRUNE_PROTECT < (prune_scan 2 rest).total + prune_estimate m.content
              · rw [prune_scan_cons_marked m rest hst h1 h2 h3 h4]
                refine iff_of_true (by simp) ?_
                exact ⟨h2, h3, by omega, hnostop, by omega⟩
              · rw [prune_scan_cons_unmarked m rest hst h1 h2 h3 h4]
                refine iff_of_false (by simp) ?_
                rintro ⟨_, _, _, _, hgt⟩
                omega
          · rw [prune_scan_cons_nontool m rest hst h1 h2]
            refine iff_of_false (by simp) ?_
            rintro ⟨hrole, _⟩
            exact h2 hrole

theorem prune_scan_pruned_eq (l : List Message) :
    (prune_scan 2 l).pruned = recoverable_tokens l := by
  induction l with
  | nil => rfl
  | cons m rest ih =>
    have ih' : (prune_scan 2 rest).pruned
        = ((rest.zip (prune_scan 2 rest).marks).map fun p =>
            if p.2 then prune_estimate p.1.content else 0).sum := ih
    by_cases hstop : (prune_scan 2 rest).stopped = true
    · simp only [recoverable_tokens]
      rw [prune_scan_cons_stop m rest hstop]
      simp only [List.zip_cons_cons, List.map_cons, List.sum_cons]
      simpa using ih'
    · have hst : (prune_scan 2 rest).stopped = false := by simpa using hstop
      by_cases h1 : (m :: rest).countP (fun x => x.role == "user") < 2
      · simp only [recoverable_tokens]
        rw [prune_scan_cons_window m rest hst h1]
        simp only [List.zip_cons_cons, List.map_cons, List.sum_cons]
        simpa using ih'
      · by_cases h2 : m.role = "tool"
        · by_cases h3 : m.content = Content.str PRUNE_MARKER
          · simp only [recoverable_tokens]
            rw [prune_scan_cons_marker m rest hst h1 h2 h3]
            simp only [List.zip_cons_cons, List.map_cons, List.sum_cons]
            simpa using ih'
          · by_cases h4 : PRUNE_PROTECT < (prune_scan 2 rest).total + prune_estimate m.content
            · simp only [recoverable_tokens]
              rw [prune_scan_cons_marked m rest hst h1 h2 h3 h4]
              simp only [List.zip_cons_cons, List.map_cons, List.sum_cons]
              simp only [if_true]
              omega
            · simp only [recoverable_tokens]
              rw [prune_scan_cons_unmarked m rest hst h1 h2 h3 h4]
              simp only [List.zip_cons_cons, List.map_cons, List.sum_cons]
              simpa using ih'
        · simp only [recoverable_tokens]
          rw [prune_scan_cons_nontool m rest hst h1 h2]
          simp only [List.zip_cons_cons, List.map_cons, List.sum_cons]
          simpa using ih'


theorem zip_mark_map_getD (l : List Message) (ms : List Bool) (h : ms.length = l.length) (i : Nat) :
    ((l.zip ms).map fun p =>
        if p.2 then { p.1 with content := Content.str PRUNE_MARKER } else p.1).getD i default
      = if ms.getD i false then { l.getD i default with content := Content.str PRUNE_MARKER }
        else l.getD i default := by
  induction l generalizing ms i with
  | nil =>
    cases ms with
    | nil => simp [List.getD_nil]
    | cons b bs => simp at h
  | cons m rest ihl =>
    cases ms with
    | nil => simp at h
    | cons b bs =>
      cases i with
      | zero => cases b <;> simp [List.zip_cons_cons, List.getD_cons_zero]
      | succ i =>
        simp only [List.zip_cons_cons, List.map_cons, List.getD_cons_succ]
        exact ihl bs (by simpa using h) i

theorem prune_length (l : List Message) :
    (prune_old_tool_outputs l 2).length = l.length := by
  simp only [prune_old_tool_outputs]
  split_ifs
  · rfl
  · rw [List.length_map, List.length_zip, prune_scan_marks_length]
    omega

theorem prune_eq_of_le (l : List Message) (h : recoverable_tokens l ≤ PRUNE_MINIMUM) :
    prune_old_tool_outputs l 2 = l := by
  simp only [prune_old_tool_outputs]
  rw [if_pos (by rw [prune_scan_pruned_eq]; exact h)]

theorem prune_eq_of_gt (l : List Message) (h : PRUNE_MINIMUM < recoverable_tokens l) :
    prune_old_tool_outputs l 2
      = (l.zip (prune_scan 2 l).marks).map fun p =>
          if p.2 then { p.1 with content := Content.str PRUNE_MARKER } else p.1 := by
  simp only [prune_old_tool_outputs]
  rw [if_neg (by rw [prune_scan_pruned_eq]; omega)]

theorem prune_getD (l : List Message) (i : Nat) :
    (prune_old_tool_outputs l 2).getD i default
      = if PRUNE_MINIMUM < recoverable_tokens l ∧ (prune_scan 2 l).marks.getD i false
        then { l.getD i default with content := Content.str PRUNE_MARKER }
        else l.getD i default := by
  by_cases h : PRUNE_MINIMUM < recoverable_tokens l
  · rw [prune_eq_of_gt l h, zip_mark_map_getD l _ (prune_scan_marks_length l) i]
    by_cases hm : (prune_scan 2 l).marks.getD i false = true
    · simp [h, hm]
    · simp [h, hm]
  · rw [prune_eq_of_le l (by omega)]
    simp [h]

theorem take_eq_of_getD (l₁ l₂ : List Message) (n : Nat)
    (hlen : l₁.length = l₂.length)
    (h : ∀ i, i < n → l₁.getD i default = l₂.getD i default) :
    l₁.take n = l₂.take n := by
  apply List.ext_getElem
  · simp [hlen]
  · intro i h1 h2
    have hi : i < n := by simp at h1; omega
    have hl : i < l₁.length := by simp at h1; omega
    have hh := h i hi
    rw [List.getD_eq_getElem _ _ hl, List.getD_eq_getElem _ _ (by omega : i < l₂.length)] at hh
    simpa [List.getElem_take] using hh

theorem plan_snd_pos_len (l : List Message) (t : Int)
    (h : (find_messages_to_compact l t).2 ≠ 0) :
    2 < (l.drop PROTECTED_MESSAGE_COUNT).length := by
  simp only [find_messages_to_compact] at h
  split_ifs at h with h1 h2 h3 h4
  · exact absurd rfl h
  · exact absurd rfl h
  · omega
  · exact absurd rfl h
  · omega


/-- C4: the pruner's backward scan marks position `i` for eviction exactly when it
holds a non-sentinel tool-role message outside the last 2 user turns, the scan was
not halted by a sentinel at any newer position, and the running total of tool-output
tokens seen from the newest message down to and including `i` exceeds PRUNE_PROTECT;
the recoverable total is the sum of the marked messages' estimates, evictions are
committed exactly when it strictly exceeds PRUNE_MINIMUM, and otherwise the input
list is returned unchanged (a no-op, not an error). -/
theorem prune_backward_scan_spec (messages : List Message) (i : Nat) :
    ((prune_scan 2 messages).marks.getD i false = true ↔ mark_spec messages i)
    ∧ (prune_scan 2 messages).pruned = recoverable_tokens messages
    ∧ (recoverable_tokens messages ≤ PRUNE_MINIMUM →
        prune_old_tool_outputs messages 2 = messages)
    ∧ (PRUNE_MINIMUM < recoverable_tokens messages →
        prune_old_tool_outputs messages 2
          = (messages.zip (prune_scan 2 messages).marks).map fun p =>
              if p.2 then { p.1 with content := Content.str PRUNE_MARKER } else p.1) :=
  ⟨prune_scan_marks_iff messages i, prune_scan_pruned_eq messages,
   prune_eq_of_le messages, prune_eq_of_gt messages⟩

/-- C5: when the pruner commits, the returned list has the same length and order as
the input; position `i` is changed only if it is marked, a marked position holds a
tool-role non-sentinel message, and the change replaces exactly the content field
with the sentinel string, leaving role, tool_calls and every other field intact.
Unmarked positions (and everything, on a no-op) are returned structurally
unchanged. -/
theorem prune_commit_frame (messages : List Message) (i : Nat) :
    (prune_old_tool_outputs messages 2).length = messages.length
    ∧ ((prune_scan 2 messages).marks.getD i false = true →
        (messages.getD i default).role = "tool"
          ∧ (messages.getD i default).content ≠ Content.str PRUNE_MARKER)
    ∧ (prune_old_tool_outputs messages 2).getD i default
        = (if PRUNE_MINIMUM < recoverable_tokens messages
              ∧ (prune_scan 2 messages).marks.getD i false
           then { messages.getD i default with content := Content.str PRUNE_MARKER }
           else messages.getD i default) := by
  refine ⟨prune_length messages, ?_, prune_getD messages i⟩
  intro h
  have hs := (prune_scan_marks_iff messages i).mp h
  exact ⟨hs.1, hs.2.1⟩

theorem marks_all_false_of_sentinel (messages : List Message)
    (h : ∀ m ∈ messages, m.role = "tool" → m.content = Content.str PRUNE_MARKER) :
    ∀ i, (prune_scan 2 messages).marks.getD i false = false := by
  intro i
  by_contra hc
  have hc' : (prune_scan 2 messages).marks.getD i false = true := by
    cases hv : (prune_scan 2 messages).marks.getD i false
    · exact absurd hv hc
    · rfl
  have hs := (prune_scan_marks_iff messages i).mp hc'
  by_cases hin : i < messages.length
  · have hmem : messages.getD i default ∈ messages := by
      rw [List.getD_eq_getElem _ _ hin]
      exact List.getElem_mem hin
    exact hs.2.1 (h _ hmem hs.1)
  · have h0 : (messages.getD i default).role = "" := by
      rw [List.getD_eq_default]
      · rfl
      · omega
    rw [hs.1] at h0
    exact absurd h0 (by decide)

theorem recoverable_zero_of_marks_false (messages : List Message)
    (h : ∀ i, (prune_scan 2 messages).marks.getD i false = false) :
    recoverable_tokens messages = 0 := by
  have hall : ∀ b ∈ (prune_scan 2 messages).marks, b = false := by
    intro b hb
    obtain ⟨j, hj, rfl⟩ := List.mem_iff_getElem.mp hb
    rw [← List.getD_eq_getElem _ false hj]
    exact h j
  apply List.sum_eq_zero
  intro x hx
  obtain ⟨p, hp, rfl⟩ := List.mem_map.mp hx
  have : p.2 ∈ (prune_scan 2 messages).marks := (List.of_mem_zip hp).2
  rw [hall _ this]
  rfl

/-- C7: pruning is idempotent — on a list whose tool messages all already carry the
sentinel it returns the identical list with no further mutation — and the backward
scan stops entirely at a sentinel-marked tool message outside the protected turn
window: no position at or before such a halt is ever marked. -/
theorem prune_idempotent_and_halts (messages : List Message) :
    ((∀ m ∈ messages, m.role = "tool" → m.content = Content.str PRUNE_MARKER) →
        prune_old_tool_outputs messages 2 = messages)
    ∧ (∀ j i : Nat, scan_stops_at messages j → i ≤ j →
        (prune_scan 2 messages).marks.getD i false = false) := by
  constructor
  · intro h
    apply prune_eq_of_le
    rw [recoverable_zero_of_marks_false messages (marks_all_false_of_sentinel messages h)]
    omega
  · intro j i hs hij
    by_contra hc
    have hc' : (prune_scan 2 messages).marks.getD i false = true := by
      cases hv : (prune_scan 2 messages).marks.getD i false
      · exact absurd hv hc
      · rfl
    have hm := (prune_scan_marks_iff messages i).mp hc'
    rcases Nat.lt_or_ge i j with hlt | hge
    · exact hm.2.2.2.1 j hlt hs
    · have : i = j := by omega
      subst this
      exact hm.2.1 hs.2.1


theorem estimate_total_cons (m : Message) (l : List Message) :
    estimate_total_tokens (m :: l) = estimate_message_tokens m + estimate_total_tokens l := by
  simp [estimate_total_tokens]

theorem count_messages_to_compact_reaches (l : List Message) (tr : Int) :
    ∀ acc : Int, acc < tr → tr ≤ acc + (estimate_total_tokens l : Int) →
      (tr ≤ acc + (estimate_total_tokens (l.take (count_messages_to_compact tr l acc)) : Int))
      ∧ (∀ m : Nat, m < count_messages_to_compact tr l acc →
          acc + (estimate_total_tokens (l.take m) : Int) < tr)
      ∧ count_messages_to_compact tr l acc ≤ l.length := by
  induction l with
  | nil =>
    intro acc h1 h2
    refine ⟨by simpa [estimate_total_tokens] using h2, ?_, by simp [count_messages_to_compact]⟩
    intro m hm
    simp [count_messages_to_compact] at hm
  | cons x rest ih =>
    intro acc h1 h2
    simp only [count_messages_to_compact]
    by_cases hc : tr ≤ acc + (estimate_message_tokens x : Int)
    · rw [if_pos hc]
      refine ⟨?_, ?_, by simp⟩
      · simpa [List.take_succ_cons, estimate_total_cons, estimate_total_tokens] using hc
      · intro m hm
        have : m = 0 := by omega
        subst this
        simpa [estimate_total_tokens] using h1
    · rw [if_neg hc]
      have h2' : tr ≤ acc + (estimate_message_tokens x : Int) + (estimate_total_tokens rest : Int) := by
        rw [estimate_total_cons] at h2
        push_cast at h2 ⊢
        omega
      obtain ⟨ha, hb, hlen⟩ := ih (acc + (estimate_message_tokens x : Int)) (by omega) h2'
      refine ⟨?_, ?_, by simp only [List.length_cons]; omega⟩
      · rw [Nat.add_comm 1 _, List.take_succ_cons, estimate_total_cons]
        push_cast
        omega
      · intro m hm
        cases m with
        | zero => simpa [estimate_total_tokens] using h1
        | succ k =>
          have hk := hb k (by omega)
          rw [List.take_succ_cons, estimate_total_cons]
          push_cast
          push_cast at hk
          omega

/-- C6: the planner returns count = 0 when the total fits the target or at most 2
compactable messages exist; when maxKept = target - protectedTokens - 2000 is ≤ 0
it plans (PROTECTED_MESSAGE_COUNT, all compactable but the last 2); when
toRemove = compactableTokens - maxKept is ≤ 0 it is a no-op; otherwise it returns
start = PROTECTED_MESSAGE_COUNT and the count of oldest compactable messages whose
accumulated estimates first reach toRemove, capped so at least 2 trailing
compactable messages survive. -/
theorem find_messages_to_compact_plan_spec (messages : List Message) (target_tokens : Int) :
    (((estimate_total_tokens (messages.take PROTECTED_MESSAGE_COUNT) : Int)
          + (estimate_total_tokens (messages.drop PROTECTED_MESSAGE_COUNT) : Int) ≤ target_tokens
        ∨ (messages.drop PROTECTED_MESSAGE_COUNT).length ≤ 2) →
        find_messages_to_compact messages target_tokens = (0, 0))
    ∧ (target_tokens < (estimate_total_tokens (messages.take PROTECTED_MESSAGE_COUNT) : Int)
          + (estimate_total_tokens (messages.drop PROTECTED_MESSAGE_COUNT) : Int) →
        2 < (messages.drop PROTECTED_MESSAGE_COUNT).length →
        target_tokens - (estimate_total_tokens (messages.take PROTECTED_MESSAGE_COUNT) : Int)
            - (SUMMARY_TOKEN_ESTIMATE : Int) ≤ 0 →
        find_messages_to_compact messages target_tokens
          = (PROTECTED_MESSAGE_COUNT, (messages.drop PROTECTED_MESSAGE_COUNT).length - 2))
    ∧ (target_tokens < (estimate_total_tokens (messages.take PROTECTED_MESSAGE_COUNT) : Int)
          + (estimate_total_tokens (messages.drop PROTECTED_MESSAGE_COUNT) : Int) →
        2 < (messages.drop PROTECTED_MESSAGE_COUNT).length →
        0 < target_tokens - (estimate_total_tokens (messages.take PROTECTED_MESSAGE_COUNT) : Int)
            - (SUMMARY_TOKEN_ESTIMATE : Int) →
        (estimate_total_tokens (messages.drop PROTECTED_MESSAGE_COUNT) : Int)
            - (target_tokens - (estimate_total_tokens (messages.take PROTECTED_MESSAGE_COUNT) : Int)
                - (SUMMARY_TOKEN_ESTIMATE : Int)) ≤ 0 →
        find_messages_to_compact messages target_tokens = (0, 0))
    ∧ (target_tokens < (estimate_total_tokens (messages.take PROTECTED_MESSAGE_COUNT) : Int)
          + (estimate_total_tokens (messages.drop PROTECTED_MESSAGE_COUNT) : Int) →
        2 < (messages.drop PROTECTED_MESSAGE_COUNT).length →
        0 < target_tokens - (estimate_total_tokens (messages.take PROTECTED_MESSAGE_COUNT) : Int)
            - (SUMMARY_TOKEN_ESTIMATE : Int) →
        0 < (estimate_total_tokens (messages.drop PROTECTED_MESSAGE_COUNT) : Int)
            - (target_tokens - (estimate_total_tokens (messages.take PROTECTED_MESSAGE_COUNT) : Int)
                - (SUMMARY_TOKEN_ESTIMATE : Int)) →
        ∃ n : Nat,
          find_messages_to_compact messages target_tokens
              = (PROTECTED_MESSAGE_COUNT, min n ((messages.drop PROTECTED_MESSAGE_COUNT).length - 2))
          ∧ (estimate_total_tokens (messages.drop PROTECTED_MESSAGE_COUNT) : Int)
              - (target_tokens - (estimate_total_tokens (messages.take PROTECTED_MESSAGE_COUNT) : Int)
                  - (SUMMARY_TOKEN_ESTIMATE : Int))
              ≤ (estimate_total_tokens ((messages.drop PROTECTED_MESSAGE_COUNT).take n) : Int)
          ∧ (∀ m : Nat, m < n →
              (estimate_total_tokens ((messages.drop PROTECTED_MESSAGE_COUNT).take m) : Int)
                < (estimate_total_tokens (messages.drop PROTECTED_MESSAGE_COUNT) : Int)
                  - (target_tokens
                      - (estimate_total_tokens (messages.take PROTECTED_MESSAGE_COUNT) : Int)
                      - (SUMMARY_TOKEN_ESTIMATE : Int)))
          ∧ n ≤ (messages.drop PROTECTED_MESSAGE_COUNT).length) := by
  refine ⟨?_, ?_, ?_, ?_⟩
  · rintro (h | h) <;> simp only [find_messages_to_compact]
    · rw [if_pos h]
    · by_cases h1 : (estimate_total_tokens (messages.take PROTECTED_MESSAGE_COUNT) : Int)
          + (estimate_total_tokens (messages.drop PROTECTED_MESSAGE_COUNT) : Int) ≤ target_tokens
      · rw [if_pos h1]
      · rw [if_neg h1, if_pos h]
  · intro h1 h2 h3
    simp only [find_messages_to_compact]
    rw [if_neg (by omega), if_neg (by omega), if_pos h3]
  · intro h1 h2 h3 h4
    simp only [find_messages_to_compact]
    rw [if_neg (by omega), if_neg (by omega), if_neg (by omega), if_pos h4]
  · intro h1 h2 h3 h4
    have hcount := count_messages_to_compact_reaches (messages.drop PROTECTED_MESSAGE_COUNT)
      ((estimate_total_tokens (messages.drop PROTECTED_MESSAGE_COUNT) : Int)
        - (target_tokens - (estimate_total_tokens (messages.take PROTECTED_MESSAGE_COUNT) : Int)
            - (SUMMARY_TOKEN_ESTIMATE : Int))) 0 (by omega) (by omega)
    refine ⟨count_messages_to_compact
        ((estimate_total_tokens (messages.drop PROTECTED_MESSAGE_COUNT) : Int)
          - (target_tokens - (estimate_total_tokens (messages.take PROTECTED_MESSAGE_COUNT) : Int)
              - (SUMMARY_TOKEN_ESTIMATE : Int)))
        (messages.drop PROTECTED_MESSAGE_COUNT) 0, ?_, ?_, ?_, ?_⟩
    · simp only [find_messages_to_compact]
      rw [if_neg (by omega), if_neg (by omega), if_neg (by omega), if_neg (by omega)]
    · have := hcount.1
      omega
    · intro m hm
      have := hcount.2.1 m hm
      omega
    · exact hcount.2.2


/-- C2 (amended): whenever none of the first PROTECTED_MESSAGE_COUNT messages is
tool-role (in particular for the normal system-prompt + first-user-message prefix),
manage_context returns them bit-identical, for every summarizer, prompt and force
flag: compaction never touches the protected prefix and pruning only ever rewrites
the content of tool-role messages. -/
theorem manage_context_preserves_protected_head {α : Type}
    (messages : List Message) (system_prompt : String) (llm : α) (force_compaction : Bool)
    (h : ∀ m ∈ messages.take PROTECTED_MESSAGE_COUNT, m.role ≠ "tool") :
    (manage_context messages system_prompt llm force_compaction).take PROTECTED_MESSAGE_COUNT
      = messages.take PROTECTED_MESSAGE_COUNT := by
  have hrole : ∀ i, i < PROTECTED_MESSAGE_COUNT → i < messages.length →
      (messages.getD i default).role ≠ "tool" := by
    intro i hi hlen
    apply h
    rw [List.getD_eq_getElem _ _ hlen]
    have hbound : i < (messages.take PROTECTED_MESSAGE_COUNT).length := by
      simp only [List.length_take]
      omega
    have he : (messages.take PROTECTED_MESSAGE_COUNT).get ⟨i, hbound⟩ = messages[i] := by
      simp [List.get_eq_getElem, List.getElem_take]
    exact he ▸ List.get_mem (messages.take PROTECTED_MESSAGE_COUNT) i hbound
  have hnomark : ∀ i, i < PROTECTED_MESSAGE_COUNT →
      (prune_scan 2 messages).marks.getD i false = false := by
    intro i hi
    by_cases hlen : i < messages.length
    · by_contra hc
      have hc' : (prune_scan 2 messages).marks.getD i false = true := by
        cases hv : (prune_scan 2 messages).marks.getD i false
        · exact absurd hv hc
        · rfl
      exact hrole i hi hlen ((prune_scan_marks_iff messages i).mp hc').1
    · apply List.getD_eq_default
      rw [prune_scan_marks_length]
      omega
  have hprune : (prune_old_tool_outputs messages 2).take PROTECTED_MESSAGE_COUNT
      = messages.take PROTECTED_MESSAGE_COUNT := by
    apply take_eq_of_getD _ _ _ (prune_length messages)
    intro i hi
    rw [prune_getD]
    rw [if_neg]
    rintro ⟨_, hmk⟩
    rw [hnomark i hi] at hmk
    cases hmk
  simp only [manage_context]
  by_cases hfast : (!force_compaction && !is_overflow (estimate_total_tokens messages)) = true
  · rw [if_pos hfast]
  · rw [if_neg hfast]
    by_cases hsecond :
        (!is_overflow (estimate_total_tokens (prune_old_tool_outputs messages 2))
          && !force_compaction) = true
    · rw [if_pos hsecond]
      exact hprune
    · rw [if_neg hsecond]
      simp only [run_compaction]
      by_cases hplan : (find_messages_to_compact (prune_old_tool_outputs messages 2)
          ((get_usable_context * 3 / 4 : Nat) : Int)).2 = 0
      · rw [if_pos hplan]
        exact hprune
      · rw [if_neg hplan]
        have hlen4 := plan_snd_pos_len _ _ hplan
        have hplen : PROTECTED_MESSAGE_COUNT ≤ (prune_old_tool_outputs messages 2).length := by
          rw [List.length_drop] at hlen4
          simp only [PROTECTED_MESSAGE_COUNT] at hlen4 ⊢
          omega
        rw [List.take_append_of_le_length (by simpa using hplen), List.take_take]
        simpa using hprune


theorem repN_length (n : Nat) : (repN n).length = n := by
  show (List.replicate n 'a').length = n
  simp

theorem repN_ne_marker : repN 144008 ≠ PRUNE_MARKER := by
  intro h
  have hl := congrArg String.length h
  rw [repN_length] at hl
  exact absurd hl (by decide)

theorem est_user_msg (s : String) : estimate_message_tokens (user_msg s) = estimate_tokens s + 4 := by
  simp [estimate_message_tokens, user_msg, content_tokens]

theorem est_tool_msg (s : String) : estimate_message_tokens (tool_msg s) = estimate_tokens s + 4 := by
  simp [estimate_message_tokens, tool_msg, content_tokens]

theorem estimate_tokens_repN (n : Nat) : estimate_tokens (repN n) = n / 4 := by
  simp [estimate_tokens, repN_length, APPROX_CHARS_PER_TOKEN]

theorem prune_estimate_str (s : String) :
    prune_estimate (Content.str s) = s.length / 4 := rfl

theorem prune_scan_exToolFirst :
    prune_scan 2 exToolFirst = ⟨36002, 36002, [true, false, false], 2, false⟩ := by
  have e2 : prune_scan 2 [user_msg "", user_msg ""] = ⟨0, 0, [false, false], 2, false⟩ := by
    decide
  have hest : prune_estimate (tool_msg (repN 144008)).content = 36002 := by
    rw [show (tool_msg (repN 144008)).content = Content.str (repN 144008) from rfl,
      prune_estimate_str, repN_length]
  have hcount : (tool_msg (repN 144008) :: [user_msg "", user_msg ""]).countP
      (fun x => x.role == "user") = 2 := by decide
  have h := prune_scan_cons_marked (tool_msg (repN 144008)) [user_msg "", user_msg ""]
    (by rw [e2])
    (by rw [hcount]; omega)
    rfl
    (by
      intro hc
      have hrm : repN 144008 = PRUNE_MARKER := by
        have := congrArg (fun c => match c with
          | Content.str s => s
          | _ => "") hc
        simpa using this
      exact repN_ne_marker hrm)
    (by rw [e2, hest]; decide)
  show prune_scan 2 (tool_msg (repN 144008) :: [user_msg "", user_msg ""]) = _
  rw [h, e2, hest, hcount]

theorem prune_exToolFirst :
    prune_old_tool_outputs exToolFirst 2
      = [tool_msg PRUNE_MARKER, user_msg "", user_msg ""] := by
  rw [prune_eq_of_gt]
  · rw [prune_scan_exToolFirst,
      show exToolFirst = tool_msg (repN 144008) :: [user_msg "", user_msg ""] from rfl]
    simp [List.zip_cons_cons, tool_msg, user_msg]
  · rw [← prune_scan_pruned_eq, prune_scan_exToolFirst]
    decide

theorem estimate_total_nil : estimate_total_tokens [] = 0 := rfl

theorem est_total_exToolFirst : estimate_total_tokens exToolFirst = 36014 := by
  rw [show exToolFirst = [tool_msg (repN 144008), user_msg "", user_msg ""] from rfl,
    estimate_total_cons, estimate_total_cons, estimate_total_cons, estimate_total_nil,
    est_tool_msg, est_user_msg, estimate_tokens_repN]
  decide

theorem manage_exToolFirst :
    manage_context exToolFirst "" () false = [tool_msg PRUNE_MARKER, user_msg "", user_msg ""] := by
  simp only [manage_context]
  rw [est_total_exToolFirst]
  rw [if_neg (by decide)]
  rw [prune_exToolFirst]
  rw [if_pos (by decide)]


/-- C2 counterexample: on a list whose first message is a 144008-character tool
result followed by two user turns, manage_context returns a list whose first
message has its content replaced by the sentinel — the protected prefix is not
bit-identical, because the pruner protects by user turns, not by index. -/
theorem manage_context_mutates_tool_head_cex :
    (manage_context exToolFirst "" () false).take PROTECTED_MESSAGE_COUNT
      ≠ exToolFirst.take PROTECTED_MESSAGE_COUNT := by
  rw [manage_exToolFirst]
  intro h
  have h0 : Content.str PRUNE_MARKER = Content.str (repN 144008) := by
    have hc := congrArg (fun l => (l.getD 0 default).content) h
    simpa [PROTECTED_MESSAGE_COUNT, List.take,
      show exToolFirst = [tool_msg (repN 144008), user_msg "", user_msg ""] from rfl,
      tool_msg] using hc
  have h1 : PRUNE_MARKER = repN 144008 := by
    injection h0
  exact repN_ne_marker h1.symm

/-- C2 witness: the amended theorem applied to the concrete system + user prefix. -/
theorem manage_context_protected_head_witness :
    (manage_context exSmall "" () false).take PROTECTED_MESSAGE_COUNT
      = exSmall.take PROTECTED_MESSAGE_COUNT :=
  manage_context_preserves_protected_head exSmall "" () false (by decide)

theorem est_msg_big : estimate_message_tokens (user_msg (repN 4000)) = 1004 := by
  rw [est_user_msg, estimate_tokens_repN]

theorem est_total_exOverflow : estimate_total_tokens exOverflow = 6032 := by
  rw [show exOverflow = [user_msg "", user_msg "", user_msg (repN 4000), user_msg (repN 4000),
      user_msg (repN 4000), user_msg (repN 4000), user_msg (repN 4000), user_msg (repN 4000)]
      from rfl]
  simp only [estimate_total_cons, estimate_total_nil, est_user_msg, estimate_tokens_repN]
  decide

theorem est_take_exOverflow : estimate_total_tokens (exOverflow.take 2) = 8 := by
  rw [show exOverflow.take 2 = [user_msg "", user_msg ""] from rfl]
  simp only [estimate_total_cons, estimate_total_nil, est_user_msg]
  decide

theorem est_drop_exOverflow : estimate_total_tokens (exOverflow.drop 2) = 6024 := by
  rw [show exOverflow.drop 2 = [user_msg (repN 4000), user_msg (repN 4000), user_msg (repN 4000),
      user_msg (repN 4000), user_msg (repN 4000), user_msg (repN 4000)] from rfl]
  simp only [estimate_total_cons, estimate_total_nil, est_user_msg, estimate_tokens_repN]

theorem count_cons_reached (tr : Int) (m : Message) (rest : List Message) (acc : Int)
    (h : tr ≤ acc + (estimate_message_tokens m : Int)) :
    count_messages_to_compact tr (m :: rest) acc = 1 := by
  simp only [count_messages_to_compact]
  rw [if_pos h]

theorem count_cons_short (tr : Int) (m : Message) (rest : List Message) (acc : Int)
    (h : ¬ tr ≤ acc + (estimate_message_tokens m : Int)) :
    count_messages_to_compact tr (m :: rest) acc
      = 1 + count_messages_to_compact tr rest (acc + (estimate_message_tokens m : Int)) := by
  simp only [count_messages_to_compact]
  rw [if_neg h]

theorem count_exOverflow :
    count_messages_to_compact 2782 (exOverflow.drop 2) 0 = 3 := by
  have h1 : ¬ (2782 : Int) ≤ 0 + (estimate_message_tokens (user_msg (repN 4000)) : Int) := by
    rw [est_msg_big]
    norm_num
  have h2 : ¬ (2782 : Int) ≤ 0 + (estimate_message_tokens (user_msg (repN 4000)) : Int)
      + (estimate_message_tokens (user_msg (repN 4000)) : Int) := by
    rw [est_msg_big]
    norm_num
  have h3 : (2782 : Int) ≤ 0 + (estimate_message_tokens (user_msg (repN 4000)) : Int)
      + (estimate_message_tokens (user_msg (repN 4000)) : Int)
      + (estimate_message_tokens (user_msg (repN 4000)) : Int) := by
    rw [est_msg_big]
    norm_num
  rw [show exOverflow.drop 2 = [user_msg (repN 4000), user_msg (repN 4000), user_msg (repN 4000),
      user_msg (repN 4000), user_msg (repN 4000), user_msg (repN 4000)] from rfl]
  rw [count_cons_short 2782 _ _ 0 h1]
  rw [count_cons_short 2782 _ _ _ h2]
  rw [count_cons_reached 2782 _ _ _ h3]

theorem find_exOverflow : find_messages_to_compact exOverflow 5250 = (2, 3) := by
  simp only [find_messages_to_compact, PROTECTED_MESSAGE_COUNT, SUMMARY_TOKEN_ESTIMATE]
  rw [est_take_exOverflow, est_drop_exOverflow,
    show (exOverflow.drop 2).length = 6 from rfl]
  norm_num [count_exOverflow]


theorem run_compaction_none_eq {α : Type} (llm : α) (messages : List Message)
    (system_prompt : String) :
    run_compaction llm messages system_prompt none none
      = if (find_messages_to_compact messages ((get_usable_context * 3 / 4 : Nat) : Int)).2 = 0
        then messages
        else messages.take PROTECTED_MESSAGE_COUNT
          ++ messages.drop
            ((find_messages_to_compact messages ((get_usable_context * 3 / 4 : Nat) : Int)).1
              + (find_messages_to_compact messages
                  ((get_usable_context * 3 / 4 : Nat) : Int)).2) := rfl

theorem run_compaction_exOverflow {α : Type} (llm : α) (system_prompt : String) :
    run_compaction llm exOverflow system_prompt none none
      = exOverflow.take 2 ++ exOverflow.drop 5 := by
  have htarget : ((get_usable_context * 3 / 4 : Nat) : Int) = 5250 := by
    norm_num [get_usable_context, MODEL_CONTEXT_LIMIT]
  rw [run_compaction_none_eq, htarget, find_exOverflow]
  rw [if_neg (by decide)]
  norm_num [PROTECTED_MESSAGE_COUNT]

theorem prune_exOverflow : prune_old_tool_outputs exOverflow 2 = exOverflow :=
  prune_eq_of_le exOverflow (by decide)

theorem manage_exOverflow {α : Type} (llm : α) (system_prompt : String) :
    manage_context exOverflow system_prompt llm false
      = exOverflow.take 2 ++ exOverflow.drop 5 := by
  simp only [manage_context]
  rw [est_total_exOverflow]
  rw [if_neg (by decide)]
  rw [prune_exOverflow, est_total_exOverflow]
  rw [if_neg (by decide)]
  exact run_compaction_exOverflow llm system_prompt

/-- C1 (code demonstration): on a concrete overflowing history the planner selects
a span of 3 messages (count > 0), yet run_compaction returns exactly
`protected ++ kept` — the span is dropped, no synthetic summary message is
inserted and the summarizer argument is never used, contradicting the spec's
compaction-splice contract (the spec itself flags this as a defect in §9). -/
theorem run_compaction_never_summarizes :
    (find_messages_to_compact exOverflow ((get_usable_context * 3 / 4 : Nat) : Int)).2 = 3
    ∧ run_compaction () exOverflow "" none none = exOverflow.take 2 ++ exOverflow.drop 5
    ∧ (run_compaction () exOverflow "" none none).length + 3 = exOverflow.length := by
  refine ⟨?_, run_compaction_exOverflow () "", ?_⟩
  · rw [show ((get_usable_context * 3 / 4 : Nat) : Int) = 5250 by
      norm_num [get_usable_context, MODEL_CONTEXT_LIMIT]]
    rw [find_exOverflow]
  · rw [run_compaction_exOverflow () ""]
    rfl

/-- C3 (code demonstration): for every summarizer client (in particular a failing
one) and every prompt, manage_context on a concrete overflowing history does not
return the pre-compaction pruned list: pruning is a no-op here, yet the result has
the to-compact span silently dropped, and no recoverable-failure condition exists
anywhere in the code (the summarizer is never even invoked). -/
theorem manage_context_drops_span_on_any_summarizer {α : Type} (llm : α) (system_prompt : String) :
    prune_old_tool_outputs exOverflow 2 = exOverflow
    ∧ manage_context exOverflow system_prompt llm false = exOverflow.take 2 ++ exOverflow.drop 5
    ∧ manage_context exOverflow system_prompt llm false ≠ prune_old_tool_outputs exOverflow 2 := by
  refine ⟨prune_exOverflow, manage_exOverflow llm system_prompt, ?_⟩
  rw [manage_exOverflow llm system_prompt, prune_exOverflow]
  intro h
  exact absurd (congrArg List.length h) (by decide)

/-- C10: two-run determinism / noninterference — manage_context's result depends
only on the message list and the force flag: any two summarizer clients (of any
types) and any two system prompts produce identical results, because run_compaction
never invokes its llm argument and never reads system_prompt. -/
theorem manage_context_independent_of_llm_and_prompt {α β : Type}
    (llm₁ : α) (llm₂ : β) (messages : List Message)
    (system_prompt₁ system_prompt₂ : String) (force_compaction : Bool) :
    manage_context messages system_prompt₁ llm₁ force_compaction
      = manage_context messages system_prompt₂ llm₂ force_compaction := rfl

/-- C8 (code demonstration): the limit and threshold constants the core actually
uses do not come from the configuration: overflow detection uses
MODEL_CONTEXT_LIMIT = 7000 while CONFIG says 200000, pruning uses
PRUNE_PROTECT = 36000 and PRUNE_MINIMUM = 6000 while CONFIG says 30000 and 5000;
at 6000 tokens the core reports overflow although the configured limit would not.
Two differing values for each constant coexist in the same program. -/
theorem core_constants_diverge_from_config :
    get_usable_context = 7000 ∧ CONFIG.model_context_limit = 200000
    ∧ get_usable_context ≠ CONFIG.model_context_limit
    ∧ PRUNE_PROTECT = 36000 ∧ CONFIG.prune_protect = 30000
    ∧ PRUNE_PROTECT ≠ CONFIG.prune_protect
    ∧ PRUNE_MINIMUM = 6000 ∧ CONFIG.prune_minimum = 5000
    ∧ PRUNE_MINIMUM ≠ CONFIG.prune_minimum
    ∧ is_overflow 6000 = true
    ∧ ¬ 100 * 6000 > CONFIG.auto_compact_threshold_pct * CONFIG.model_context_limit := by
  decide


theorem except_ok_bind {ε α β : Type} (a : α) (f : α → Except ε β) :
    (Except.ok a >>= f) = f a := rfl

theorem except_pure {ε α : Type} (a : α) : (pure a : Except ε α) = Except.ok a := rfl

theorem estimate_tokens_py_str (s : String) :
    estimate_tokens_py (PyVal.pystr s) = Except.ok (estimate_tokens s) := by
  by_cases h : s = ""
  · subst h
    rfl
  · simp [estimate_tokens_py, py_truthy, h, py_len, estimate_tokens, APPROX_CHARS_PER_TOKEN,
      except_ok_bind]

theorem part_tokens_py_textPart_eq (ptype text : String) :
    part_tokens_py (ContentPart.toPy (ContentPart.textPart ptype text))
      = (estimate_tokens_py (PyVal.pystr text) >>= fun t =>
          pure (t + (if (ptype == "image_url") then 1000 else 0))) := rfl

theorem part_tokens_py_agrees (p : ContentPart) :
    part_tokens_py p.toPy = Except.ok (part_tokens p) := by
  cases p with
  | nonDict => rfl
  | textPart ptype text =>
    rw [part_tokens_py_textPart_eq, estimate_tokens_py_str, except_ok_bind]
    by_cases h : ptype = "image_url"
    · simp [h, part_tokens, except_pure]
    · simp [h, part_tokens, except_pure]

theorem tool_call_tokens_py_eq (tc : ToolCall) :
    tool_call_tokens_py tc.toPy
      = (estimate_tokens_py (PyVal.pystr tc.name) >>= fun a =>
          estimate_tokens_py (PyVal.pystr tc.arguments) >>= fun b =>
          pure (a + b)) := rfl

theorem tool_call_tokens_py_agrees (tc : ToolCall) :
    tool_call_tokens_py tc.toPy = Except.ok (tool_call_tokens tc) := by
  rw [tool_call_tokens_py_eq, estimate_tokens_py_str, except_ok_bind,
    estimate_tokens_py_str, except_ok_bind]
  rfl

theorem foldlM_parts_ok (l : List ContentPart) : ∀ acc : Nat,
    (l.map ContentPart.toPy).foldlM (fun acc p =>
        part_tokens_py p >>= fun t => Except.ok (acc + t)) acc
      = Except.ok (acc + (l.map part_tokens).sum) := by
  induction l with
  | nil => intro acc; exact except_pure acc
  | cons p rest ih =>
    intro acc
    simp only [List.map_cons, List.foldlM_cons, part_tokens_py_agrees p, except_ok_bind, ih,
      List.sum_cons]
    rw [Nat.add_assoc]

theorem foldlM_tool_calls_ok (l : List ToolCall) : ∀ acc : Nat,
    (l.map ToolCall.toPy).foldlM (fun acc tc =>
        tool_call_tokens_py tc >>= fun t => Except.ok (acc + t)) acc
      = Except.ok (acc + (l.map tool_call_tokens).sum) := by
  induction l with
  | nil => intro acc; exact except_pure acc
  | cons tc rest ih =>
    intro acc
    simp only [List.map_cons, List.foldlM_cons, tool_call_tokens_py_agrees tc, except_ok_bind, ih,
      List.sum_cons]
    rw [Nat.add_assoc]

theorem estimate_message_tokens_py_str_eq (role s : String) (tcs : List ToolCall)
    (extra : List (String × String)) :
    estimate_message_tokens_py (Message.toPy ⟨role, Content.str s, tcs, extra⟩)
      = ((tcs.map ToolCall.toPy).foldlM (fun acc tc =>
          tool_call_tokens_py tc >>= fun t => Except.ok (acc + t)) 0 >>= fun tctoks =>
          Except.ok (estimate_tokens s + tctoks + 4)) := rfl

theorem estimate_message_tokens_py_parts_eq (role : String) (l : List ContentPart)
    (tcs : List ToolCall) (extra : List (String × String)) :
    estimate_message_tokens_py (Message.toPy ⟨role, Content.parts l, tcs, extra⟩)
      = ((l.map ContentPart.toPy).foldlM (fun acc p =>
          part_tokens_py p >>= fun t => Except.ok (acc + t)) 0 >>= fun ctoks =>
          (tcs.map ToolCall.toPy).foldlM (fun acc tc =>
            tool_call_tokens_py tc >>= fun t => Except.ok (acc + t)) 0 >>= fun tctoks =>
          Except.ok (ctoks + tctoks + 4)) := rfl

theorem estimate_message_tokens_py_absent_eq (role : String) (tcs : List ToolCall)
    (extra : List (String × String)) :
    estimate_message_tokens_py (Message.toPy ⟨role, Content.absent, tcs, extra⟩)
      = ((tcs.map ToolCall.toPy).foldlM (fun acc tc =>
          tool_call_tokens_py tc >>= fun t => Except.ok (acc + t)) 0 >>= fun tctoks =>
          Except.ok (0 + tctoks + 4)) := rfl

theorem estimate_message_tokens_py_agrees (m : Message) :
    estimate_message_tokens_py m.toPy = Except.ok (estimate_message_tokens m) := by
  obtain ⟨role, content, tool_calls, extra⟩ := m
  cases content with
  | str s =>
    rw [estimate_message_tokens_py_str_eq, foldlM_tool_calls_ok, except_ok_bind]
    simp [estimate_message_tokens, content_tokens]
  | parts l =>
    rw [estimate_message_tokens_py_parts_eq, foldlM_parts_ok, except_ok_bind,
      foldlM_tool_calls_ok, except_ok_bind]
    simp [estimate_message_tokens, content_tokens]
  | absent =>
    rw [estimate_message_tokens_py_absent_eq, foldlM_tool_calls_ok, except_ok_bind]
    simp [estimate_message_tokens, content_tokens]


/-- C9 counterexample: estimation is not never-fatal on malformed fields — a
message dict whose tool_calls field is present but None makes
estimate_message_tokens iterate None and raise a TypeError instead of
contributing zero tokens. -/
theorem estimate_message_tokens_py_fatal_cex :
    estimate_message_tokens_py (PyVal.pydict [("tool_calls", PyVal.pynone)])
      = Except.error "TypeError: object is not iterable" := rfl

/-- C9 (amended): estimate(text) = floor(len(text)/4), non-negative, monotone in
length and 0 for empty or absent text; a text part contributes its estimate plus a
fixed 1000-token surcharge when its type is "image_url"; estimateMessage sums
content tokens, tool-call name and argument tokens, plus a per-message overhead of
4; estimateTotal sums estimateMessage; and on every well-formed message dict the
dynamic Python-semantics estimator returns exactly these values, with missing
fields contributing zero (a bare dict costs only the overhead 4). The original
never-fatal clause is dropped: see the counterexample. -/
theorem token_estimation_spec :
    (∀ s : String, estimate_tokens s = s.length / 4)
    ∧ (∀ s t : String, s.length ≤ t.length → estimate_tokens s ≤ estimate_tokens t)
    ∧ estimate_tokens "" = 0
    ∧ content_tokens Content.absent = 0
    ∧ (∀ ptype text : String, part_tokens (ContentPart.textPart ptype text)
        = estimate_tokens text + (if ptype = "image_url" then 1000 else 0))
    ∧ (∀ m : Message, estimate_message_tokens m
        = content_tokens m.content + (m.tool_calls.map tool_call_tokens).sum + 4)
    ∧ (∀ messages : List Message,
        estimate_total_tokens messages = (messages.map estimate_message_tokens).sum)
    ∧ (∀ m : Message, estimate_message_tokens_py m.toPy = Except.ok (estimate_message_tokens m))
    ∧ estimate_message_tokens_py (PyVal.pydict []) = Except.ok 4 := by
  refine ⟨fun s => rfl, ?_, rfl, rfl, fun ptype text => rfl, fun m => rfl, fun messages => rfl,
    estimate_message_tokens_py_agrees, rfl⟩
  intro s t h
  exact Nat.div_le_div_right h

end Compaction
